import Mathlib

/-
Verification of the notion-image-cdn service core against its specification.
The definitions below are shallow embeddings of the TypeScript sources under
packages/service/src; theorems at the end of the file settle the spec claims.
-/

set_option maxRecDepth 4096

namespace CDN

/-! ## SHA-256 (node:crypto createHash('sha256'), hex digest)
A faithful executable model of SHA-256 over the UTF-8 bytes of a string,
used by `hashString` in lib/cache-key.ts. All arithmetic is over `Nat`
with explicit 32-bit truncation. -/

def w32 (n : Nat) : Nat := n % 4294967296

def rotr32 (x n : Nat) : Nat := w32 ((x >>> n) ||| (x <<< (32 - n)))

def smallSigma0 (x : Nat) : Nat := (rotr32 x 7) ^^^ (rotr32 x 18) ^^^ (x >>> 3)

def smallSigma1 (x : Nat) : Nat := (rotr32 x 17) ^^^ (rotr32 x 19) ^^^ (x >>> 10)

def bigSigma0 (x : Nat) : Nat := (rotr32 x 2) ^^^ (rotr32 x 13) ^^^ (rotr32 x 22)

def bigSigma1 (x : Nat) : Nat := (rotr32 x 6) ^^^ (rotr32 x 11) ^^^ (rotr32 x 25)

def chv (e f g : Nat) : Nat := (e &&& f) ^^^ ((e ^^^ 0xffffffff) &&& g)

def majv (a b c : Nat) : Nat := (a &&& b) ^^^ (a &&& c) ^^^ (b &&& c)

def sha256K : List Nat :=
  [1116352408, 1899447441, 3049323471, 3921009573, 961987163, 1508970993,
   2453635748, 2870763221, 3624381080, 310598401, 607225278, 1426881987,
   1925078388, 2162078206, 2614888103, 3248222580, 3835390401, 4022224774,
   264347078, 604807628, 770255983, 1249150122, 1555081692, 1996064986,
   2554220882, 2821834349, 2952996808, 3210313671, 3336571891, 3584528711,
   113926993, 338241895, 666307205, 773529912, 1294757372, 1396182291,
   1695183700, 1986661051, 2177026350, 2456956037, 2730485921, 2820302411,
   3259730800, 3345764771, 3516065817, 3600352804, 4094571909, 275423344,
   430227734, 506948616, 659060556, 883997877, 958139571, 1322822218,
   1537002063, 1747873779, 1955562222, 2024104815, 2227730452, 2361852424,
   2428436474, 2756734187, 3204031479, 3329325298]

def sha256IV : List Nat :=
  [1779033703, 3144134277, 1013904242, 2773480762,
   1359893119, 2600822924, 528734635, 1541459225]

/-- UTF-8 encoding of a single character as a byte list. -/
def utf8Bytes (c : Char) : List Nat :=
  let n := c.toNat
  if n < 0x80 then [n]
  else if n < 0x800 then [0xC0 ||| (n >>> 6), 0x80 ||| (n &&& 0x3F)]
  else if n < 0x10000 then
    [0xE0 ||| (n >>> 12), 0x80 ||| ((n >>> 6) &&& 0x3F), 0x80 ||| (n &&& 0x3F)]
  else
    [0xF0 ||| (n >>> 18), 0x80 ||| ((n >>> 12) &&& 0x3F),
     0x80 ||| ((n >>> 6) &&& 0x3F), 0x80 ||| (n &&& 0x3F)]

def stringBytes (s : String) : List Nat := (s.data.map utf8Bytes).flatten

/-- SHA-256 padding: append 0x80, zero bytes to 56 mod 64, then the 64-bit
big-endian bit length. -/
def sha256Pad (msg : List Nat) : List Nat :=
  let len := msg.length
  let r := (len + 1) % 64
  let zeros := if r ≤ 56 then 56 - r else 120 - r
  let bitLen := 8 * len
  msg ++ [0x80] ++ List.replicate zeros 0 ++
    [bitLen >>> 56 &&& 0xff, bitLen >>> 48 &&& 0xff, bitLen >>> 40 &&& 0xff,
     bitLen >>> 32 &&& 0xff, bitLen >>> 24 &&& 0xff, bitLen >>> 16 &&& 0xff,
     bitLen >>> 8 &&& 0xff, bitLen &&& 0xff]

/-- Group bytes into big-endian 32-bit words. -/
def toWords : List Nat → List Nat
  | b0 :: b1 :: b2 :: b3 :: rest => (((b0 * 256 + b1) * 256 + b2) * 256 + b3) :: toWords rest
  | _ => []

def buildSchedule (ws : List Nat) : Array Nat :=
  (List.range 48).foldl
    (fun w j =>
      let i := j + 16
      w.push (w32 ((w.getD (i - 16) 0) + smallSigma0 (w.getD (i - 15) 0) +
        (w.getD (i - 7) 0) + smallSigma1 (w.getD (i - 2) 0))))
    ws.toArray

/-- One round of the SHA-256 compression function on the 8-value working state. -/
def compressRound (st : List Nat) (kw : Nat × Nat) : List Nat :=
  match st with
  | [a, b, c, d, e, f, g, hh] =>
    let t1 := w32 (hh + bigSigma1 e + chv e f g + kw.1 + kw.2)
    let t2 := w32 (bigSigma0 a + majv a b c)
    [w32 (t1 + t2), a, b, c, w32 (d + t1), e, f, g]
  | other => other

def processBlock (st : List Nat) (block : List Nat) : List Nat :=
  let sched := (buildSchedule (toWords block)).toList
  let working := (sha256K.zip sched).foldl compressRound st
  (st.zip working).map fun p => w32 (p.1 + p.2)

def chunksGo : Nat → List Nat → List (List Nat)
  | 0, _ => []
  | _, [] => []
  | fuel + 1, l => l.take 64 :: chunksGo fuel (l.drop 64)

def chunks64 (l : List Nat) : List (List Nat) := chunksGo l.length l

def sha256Words (msg : List Nat) : List Nat :=
  (chunks64 (sha256Pad msg)).foldl processBlock sha256IV

def hexDigit (n : Nat) : Char := if n < 10 then Char.ofNat (48 + n) else Char.ofNat (87 + n)

def byteToHex (b : Nat) : List Char := [hexDigit (b / 16 % 16), hexDigit (b % 16)]

def wordToHex (w : Nat) : List Char :=
  byteToHex (w >>> 24 &&& 0xff) ++ byteToHex (w >>> 16 &&& 0xff) ++
  byteToHex (w >>> 8 &&& 0xff) ++ byteToHex (w &&& 0xff)

/-- SHA-256 hex digest of a string's UTF-8 bytes (lib/cache-key.ts `hashString`). -/
def hashString (input : String) : String :=
  String.mk (((sha256Words (stringBytes input)).map wordToHex).flatten)

/-! ## Transform options (types/index.ts `TransformOptions`) -/

inductive ImageFormat where
  | webp | avif | png | jpeg | original
deriving DecidableEq, Repr

def ImageFormat.render : ImageFormat → String
  | .webp => "webp"
  | .avif => "avif"
  | .png => "png"
  | .jpeg => "jpeg"
  | .original => "original"

inductive FitMode where
  | cover | contain | fill | inside | outside
deriving DecidableEq, Repr

def FitMode.render : FitMode → String
  | .cover => "cover"
  | .contain => "contain"
  | .fill => "fill"
  | .inside => "inside"
  | .outside => "outside"

structure TransformOptions where
  width : Option Nat := none
  height : Option Nat := none
  format : Option ImageFormat := none
  quality : Option Nat := none
  fit : Option FitMode := none
deriving DecidableEq, Repr

/-! ## Cache key generator (lib/cache-key.ts) -/

/-- `parts.join('_')` on the collected directive strings. -/
def joinParts : List String → String
  | [] => ""
  | [p] => p
  | p :: rest => p ++ "_" ++ joinParts rest

/-- Directive list built by `generateVariantSuffix`'s conditional pushes. -/
def variantParts (o : TransformOptions) : List String :=
  (match o.width with | some w => ["w" ++ toString w] | none => [])
  ++ (match o.height with | some hv => ["h" ++ toString hv] | none => [])
  ++ (match o.format with
      | some f => if f = .original then [] else ["f" ++ f.render]
      | none => [])
  ++ (match o.quality with | some q => ["q" ++ toString q] | none => [])
  ++ (match o.fit with | some m => ["fit" ++ m.render] | none => [])

/-- lib/cache-key.ts `generateVariantSuffix`. -/
def generateVariantSuffix (options : Option TransformOptions) : String :=
  match options with
  | none => ""
  | some o =>
    let parts := variantParts o
    if parts.length > 0 then joinParts parts else ""

/-- lib/cache-key.ts `generateCacheKey`. -/
def generateCacheKey (baseUrl : String) (transform : Option TransformOptions) : String :=
  let urlHash := hashString baseUrl
  let variantSuffix := generateVariantSuffix transform
  if variantSuffix ≠ "" then urlHash ++ "/" ++ variantSuffix else urlHash ++ "/original"

/-- lib/cache-key.ts `generateCachePrefix`. -/
def generateCachePrefix (baseUrl : String) : String := hashString baseUrl ++ "/"

/-- The variant suffix as the specification words it: the present directives
`wN`, `hN`, `fFMT` (omitted when the format is `original`), `qN`, `fitMODE`
joined by `_`, and `original` when no directive is present. -/
def variantSuffixSpec (o : TransformOptions) : String :=
  let directives := variantParts o
  if directives = [] then "original" else joinParts directives

/-- The specification's `normalise`: remove `format = original`. -/
def normaliseTransform (o : TransformOptions) : TransformOptions :=
  { o with format := if o.format = some .original then none else o.format }

lemma joinParts_ne_empty (l : List String) (hall : ∀ p ∈ l, p.length ≠ 0) (hne : l ≠ []) :
    joinParts l ≠ "" := by
  match l with
  | [p] =>
    have hp := hall p (by simp)
    simp only [joinParts]
    intro hc
    rw [hc] at hp
    simp at hp
  | p :: q :: rest =>
    simp only [joinParts]
    intro hcontr
    have hlen := congrArg String.length hcontr
    rw [String.length_append, String.length_append] at hlen
    have hp := hall p (by simp)
    simp at hlen
    omega

lemma variantParts_forall_ne (o : TransformOptions) :
    ∀ p ∈ variantParts o, p.length ≠ 0 := by
  rcases o with ⟨w, ht, f, q, fm⟩
  intro p hp
  have lem : ∀ (pre suf : String), p = pre ++ suf → pre.length ≠ 0 → p.length ≠ 0 := by
    intro pre suf hps hpre
    subst hps; rw [String.length_append]; omega
  simp only [variantParts, List.mem_append] at hp
  rcases hp with ((((hp | hp) | hp) | hp) | hp)
  · cases w with
    | none => simp at hp
    | some n =>
      simp at hp
      exact lem "w" (toString n) hp (by decide)
  · cases ht with
    | none => simp at hp
    | some n =>
      simp at hp
      exact lem "h" (toString n) hp (by decide)
  · cases f with
    | none => simp at hp
    | some g =>
      by_cases hg : g = .original
      · simp [hg] at hp
      · simp [hg] at hp
        exact lem "f" g.render hp (by decide)
  · cases q with
    | none => simp at hp
    | some n =>
      simp at hp
      exact lem "q" (toString n) hp (by decide)
  · cases fm with
    | none => simp at hp
    | some m =>
      simp at hp
      exact lem "fit" m.render hp (by decide)

lemma variantParts_normalise (o : TransformOptions) :
    variantParts (normaliseTransform o) = variantParts o := by
  rcases o with ⟨w, ht, f, q, fm⟩
  cases f with
  | none => rfl
  | some g =>
    by_cases hg : g = .original
    · subst hg
      simp [normaliseTransform, variantParts]
    · simp [normaliseTransform, variantParts, hg]

lemma generateCacheKey_eq (u : String) (o : TransformOptions) :
    generateCacheKey u (some o) = hashString u ++ "/" ++ variantSuffixSpec o := by
  by_cases hnil : variantParts o = []
  · simp [generateCacheKey, generateVariantSuffix, variantSuffixSpec, hnil]
    rw [String.append_assoc]
    exact congrArg (fun t => hashString u ++ t) (by decide)
  · have hne := joinParts_ne_empty (variantParts o) (variantParts_forall_ne o) hnil
    have hpos : (variantParts o).length > 0 := by
      cases hl : variantParts o with
      | nil => exact absurd hl hnil
      | cons a l => simp
    simp [generateCacheKey, generateVariantSuffix, variantSuffixSpec, hnil, hpos, hne]

/-- Claim C1: for every base URL `u` and transform options `o`, the cache key is
`hashString u ++ "/" ++ suffix` where the suffix joins the present directives
`wN`, `hN`, `fFMT` (omitted for `original`), `qN`, `fitMODE` with `_` and is
`original` when no directive is present; the key is invariant under removing
`format = original`; and every generated key extends `generateCachePrefix u`. -/
theorem generateCacheKey_matches_spec (u : String) (o : TransformOptions) :
    generateCacheKey u (some o) = hashString u ++ "/" ++ variantSuffixSpec o
    ∧ generateCacheKey u (some o) = generateCacheKey u (some (normaliseTransform o))
    ∧ (∀ t : Option TransformOptions,
        ∃ rest, generateCacheKey u t = generateCachePrefix u ++ rest) := by
  refine ⟨generateCacheKey_eq u o, ?_, ?_⟩
  · rw [generateCacheKey_eq u o, generateCacheKey_eq u (normaliseTransform o)]
    simp [variantSuffixSpec, variantParts_normalise]
  · intro t
    unfold generateCacheKey generateCachePrefix
    by_cases hv : generateVariantSuffix t = ""
    · exact ⟨"original", by simp [hv, String.append_assoc]⟩
    · exact ⟨generateVariantSuffix t, by simp [hv, String.append_assoc]⟩

/-! ## Kernel-reducible string primitives
Executable counterparts of the JS string operations the service uses
(`split('.')`, `startsWith`, `endsWith`, `slice`, `toLowerCase`), defined by
structural recursion over the character list so concrete inputs evaluate. -/

def listPrefixOf : List Char → List Char → Bool
  | [], _ => true
  | _ :: _, [] => false
  | a :: as, b :: bs => a == b && listPrefixOf as bs

def strStartsWith (s pre : String) : Bool := listPrefixOf pre.data s.data

def strEndsWith (s suf : String) : Bool := listPrefixOf suf.data.reverse s.data.reverse

def strDrop (s : String) (n : Nat) : String := String.mk (s.data.drop n)

def strDropRight (s : String) (n : Nat) : String := String.mk (s.data.take (s.data.length - n))

def lowerChar (c : Char) : Char :=
  if 65 ≤ c.toNat ∧ c.toNat ≤ 90 then Char.ofNat (c.toNat + 32) else c

def lowerStr (s : String) : String := String.mk (s.data.map lowerChar)

def splitDotGo : List Char → List Char → List String
  | [], acc => [String.mk acc.reverse]
  | c :: rest, acc =>
    if c = '.' then String.mk acc.reverse :: splitDotGo rest []
    else splitDotGo rest (c :: acc)

/-- JS `host.split('.')`. -/
def splitOnDot (s : String) : List String := splitDotGo s.data []

/-! ## URL validator (lib/validator.ts, variant with numeric IPv4 parsing) -/

/-- One octet of the regex `^\d{1,3}(\.\d{1,3}){3}$`: 1-3 digit characters. -/
def isDigitRun (p : String) : Bool :=
  1 ≤ p.length && p.length ≤ 3 && p.data.all Char.isDigit

def digitsToNat (l : List Char) : Nat := l.foldl (fun acc c => acc * 10 + (c.toNat - 48)) 0

/-- lib/validator.ts `parseIPv4`: strict dotted-decimal parse of an IPv4
address into its 32-bit value; rejects leading-zero octets and octets > 255. -/
def parseIPv4 (host : String) : Option Nat :=
  if !((splitOnDot host).length == 4 && (splitOnDot host).all isDigitRun) then none
  else if (splitOnDot host).any (fun p => decide (1 < p.length) && strStartsWith p "0") then none
  else if ((splitOnDot host).map (fun p => digitsToNat p.data)).any (fun v => 255 < v) then none
  else some (((splitOnDot host).map (fun p => digitsToNat p.data)).foldl
    (fun acc v => acc * 256 + v) 0)

/-- lib/validator.ts `isPrivateIPv4`: the fourteen private/reserved range
checks, written with the source's shift comparisons. -/
def isPrivateIPv4 (ip : Nat) : Bool :=
  ip >>> 24 == 0 ||
  ip >>> 24 == 10 ||
  ip >>> 22 == ((100 <<< 2) ||| 1) ||
  ip >>> 24 == 127 ||
  ip >>> 16 == 0xa9fe ||
  ip >>> 20 == 0xac1 ||
  ip >>> 8 == 0xc00000 ||
  ip >>> 8 == 0xc00002 ||
  ip >>> 16 == 0xc0a8 ||
  ip >>> 17 == ((198 <<< 7) ||| 9) ||
  ip >>> 8 == 0xc63364 ||
  ip >>> 8 == 0xcb0071 ||
  ip >>> 28 == 0xe ||
  ip >>> 28 == 0xf

/-- `[::1]` → `::1`: strip the brackets the URL parser may leave. -/
def bareHostOf (hostname : String) : String :=
  if strStartsWith hostname "[" && strEndsWith hostname "]"
  then strDropRight (strDrop hostname 1) 1 else hostname

/-- The IPv4-mapped-IPv6 test: parse the part after `::ffff:` and check it. -/
def mappedPrivate (b : String) : Bool :=
  match parseIPv4 (strDrop b 7) with
  | some ip => isPrivateIPv4 ip
  | none => false

/-- lib/validator.ts `isPrivateHost` (numeric-IPv4 variant). -/
def isPrivateHost (hostname : String) : Bool :=
  if hostname = "localhost" then true
  else if strEndsWith hostname ".local" || strEndsWith hostname ".internal" then true
  else if bareHostOf hostname = "::1" ∨ bareHostOf hostname = "::" then true
  else if strStartsWith (bareHostOf hostname) "fc"
          || strStartsWith (bareHostOf hostname) "fd" then true
  else if strStartsWith (lowerStr (bareHostOf hostname)) "fe80" then true
  else if strStartsWith (lowerStr (bareHostOf hostname)) "::ffff:"
          && mappedPrivate (bareHostOf hostname) then true
  else
    match parseIPv4 hostname with
    | some ip => isPrivateIPv4 ip
    | none => false

/-- The abstract outcome of WHATWG `new URL(rawUrl)`: the fields the
validator reads. `none` models a constructor throw. -/
structure URLParts where
  protocol : String
  username : String
  password : String
  hostname : String
deriving DecidableEq, Repr

inductive ValidationResult where
  | valid : ValidationResult
  | invalid (error errorCode : String) : ValidationResult
deriving DecidableEq, Repr

def ValidationResult.errorCode : ValidationResult → Option String
  | .valid => none
  | .invalid _ c => some c

def MAX_URL_LENGTH : Nat := 4096

/-- lib/validator.ts `validateImageUrl`, over the supplied parse outcome. -/
def validateImageUrl (rawUrl : String) (parsed? : Option URLParts)
    (allowedDomains : List String) : ValidationResult :=
  if rawUrl.length = 0 then .invalid "URL is required" "MISSING_URL"
  else if rawUrl.length > MAX_URL_LENGTH then
    .invalid "URL exceeds maximum length of 4096 characters" "URL_TOO_LONG"
  else
    match parsed? with
    | none => .invalid "Invalid URL format" "INVALID_URL"
    | some parsed =>
      if parsed.protocol ≠ "https:" then
        .invalid "Only HTTPS URLs are allowed" "HTTPS_REQUIRED"
      else if parsed.username ≠ "" ∨ parsed.password ≠ "" then
        .invalid "URLs with embedded credentials are not allowed" "CREDENTIALS_IN_URL"
      else if isPrivateHost (lowerStr parsed.hostname) then
        .invalid "URLs targeting private/internal hosts are not allowed" "PRIVATE_HOST"
      else if lowerStr parsed.hostname ∉ allowedDomains then
        .invalid "Domain is not in the allowlist" "DOMAIN_NOT_ALLOWED"
      else .valid

/-- The fourteen CIDR ranges of the specification, as numeric intervals. -/
def privateIPv4Ranges (ip : Nat) : Prop :=
  ip < 0x01000000
  ∨ (0x0A000000 ≤ ip ∧ ip < 0x0B000000)
  ∨ (0x64400000 ≤ ip ∧ ip < 0x64800000)
  ∨ (0x7F000000 ≤ ip ∧ ip < 0x80000000)
  ∨ (0xA9FE0000 ≤ ip ∧ ip < 0xA9FF0000)
  ∨ (0xAC100000 ≤ ip ∧ ip < 0xAC200000)
  ∨ (0xC0000000 ≤ ip ∧ ip < 0xC0000100)
  ∨ (0xC0000200 ≤ ip ∧ ip < 0xC0000300)
  ∨ (0xC0A80000 ≤ ip ∧ ip < 0xC0A90000)
  ∨ (0xC6120000 ≤ ip ∧ ip < 0xC6140000)
  ∨ (0xC6336400 ≤ ip ∧ ip < 0xC6336500)
  ∨ (0xCB007100 ≤ ip ∧ ip < 0xCB007200)
  ∨ (0xE0000000 ≤ ip ∧ ip < 0xF0000000)
  ∨ (0xF0000000 ≤ ip ∧ ip < 0x100000000)

/-- The private-host predicate as the specification words it. -/
def privateHostSpec (hostname : String) : Prop :=
  hostname = "localhost"
  ∨ strEndsWith hostname ".local" = true
  ∨ strEndsWith hostname ".internal" = true
  ∨ bareHostOf hostname = "::1"
  ∨ bareHostOf hostname = "::"
  ∨ strStartsWith (bareHostOf hostname) "fc" = true
  ∨ strStartsWith (bareHostOf hostname) "fd" = true
  ∨ strStartsWith (lowerStr (bareHostOf hostname)) "fe80" = true
  ∨ (strStartsWith (lowerStr (bareHostOf hostname)) "::ffff:" = true
     ∧ ∃ ip, parseIPv4 (strDrop (bareHostOf hostname) 7) = some ip ∧ privateIPv4Ranges ip)
  ∨ (∃ ip, parseIPv4 hostname = some ip ∧ privateIPv4Ranges ip)

lemma foldl_base256_lt (l : List Nat) (hall : ∀ v ∈ l, v ≤ 255) (acc : Nat) :
    l.foldl (fun a v => a * 256 + v) acc < (acc + 1) * 256 ^ l.length := by
  induction l generalizing acc with
  | nil => simp
  | cons v t ih =>
    simp only [List.foldl_cons, List.length_cons]
    have hv : v ≤ 255 := hall v (by simp)
    have ht := ih (fun x hx => hall x (by simp [hx])) (acc * 256 + v)
    have hstep : (acc * 256 + v + 1) * 256 ^ t.length ≤ (acc + 1) * 256 ^ (t.length + 1) := by
      have h1 : acc * 256 + v + 1 ≤ (acc + 1) * 256 := by nlinarith
      calc (acc * 256 + v + 1) * 256 ^ t.length
          ≤ ((acc + 1) * 256) * 256 ^ t.length := Nat.mul_le_mul_right _ h1
        _ = (acc + 1) * 256 ^ (t.length + 1) := by ring
    exact lt_of_lt_of_le ht hstep

lemma parseIPv4_lt (host : String) (ip : Nat) (hp : parseIPv4 host = some ip) :
    ip < 4294967296 := by
  simp only [parseIPv4] at hp
  split at hp
  · exact absurd hp (by simp)
  · split at hp
    · exact absurd hp (by simp)
    · split at hp
      · exact absurd hp (by simp)
      · rename_i hshape hzero hle
        simp only [Bool.not_eq_true', Bool.not_eq_false, Bool.and_eq_true, beq_iff_eq] at hshape
        obtain ⟨hlen, -⟩ := hshape
        simp only [Option.some.injEq] at hp
        have hall : ∀ v ∈ (splitOnDot host).map (fun p => digitsToNat p.data), v ≤ 255 := by
          intro v hv
          by_contra hgt
          apply hle
          simp only [List.any_eq_true, decide_eq_true_eq]
          exact ⟨v, hv, Nat.lt_of_not_le fun h2 => hgt h2⟩
        have hb := foldl_base256_lt ((splitOnDot host).map (fun p => digitsToNat p.data)) hall 0
        rw [List.length_map, hlen] at hb
        rw [← hp]
        calc ((splitOnDot host).map (fun p => digitsToNat p.data)).foldl
              (fun a v => a * 256 + v) 0
            < (0 + 1) * 256 ^ 4 := hb
          _ ≤ 4294967296 := by norm_num

lemma isPrivateIPv4_iff (ip : Nat) (hlt : ip < 4294967296) :
    isPrivateIPv4 ip = true ↔ privateIPv4Ranges ip := by
  unfold isPrivateIPv4 privateIPv4Ranges
  simp only [(by decide : ((100 : Nat) <<< 2) ||| 1 = 401),
    (by decide : ((198 : Nat) <<< 7) ||| 9 = 25353),
    Nat.shiftRight_eq_div_pow, Bool.or_eq_true, beq_iff_eq]
  norm_num
  omega

lemma mappedPrivate_iff (b : String) :
    mappedPrivate b = true ↔
      ∃ ip, parseIPv4 (strDrop b 7) = some ip ∧ privateIPv4Ranges ip := by
  unfold mappedPrivate
  cases hp : parseIPv4 (strDrop b 7) with
  | none => simp
  | some ip =>
    rw [isPrivateIPv4_iff ip (parseIPv4_lt _ ip hp)]
    simp

lemma parseHost_iff (hostname : String) :
    (match parseIPv4 hostname with
     | some ip => isPrivateIPv4 ip
     | none => false) = true ↔
      ∃ ip, parseIPv4 hostname = some ip ∧ privateIPv4Ranges ip := by
  cases hp : parseIPv4 hostname with
  | none => simp
  | some ip =>
    rw [isPrivateIPv4_iff ip (parseIPv4_lt _ ip hp)]
    simp

lemma isPrivateHost_iff (hostname : String) :
    isPrivateHost hostname = true ↔ privateHostSpec hostname := by
  unfold isPrivateHost privateHostSpec
  split_ifs with h1 h2 h3 h4 h5 h6
  · simp only [true_iff]
    exact Or.inl h1
  · simp only [Bool.or_eq_true] at h2
    simp only [true_iff]
    rcases h2 with h | h
    · exact Or.inr (Or.inl h)
    · exact Or.inr (Or.inr (Or.inl h))
  · simp only [true_iff]
    rcases h3 with h | h
    · exact Or.inr (Or.inr (Or.inr (Or.inl h)))
    · exact Or.inr (Or.inr (Or.inr (Or.inr (Or.inl h))))
  · simp only [Bool.or_eq_true] at h4
    simp only [true_iff]
    rcases h4 with h | h
    · exact Or.inr (Or.inr (Or.inr (Or.inr (Or.inr (Or.inl h)))))
    · exact Or.inr (Or.inr (Or.inr (Or.inr (Or.inr (Or.inr (Or.inl h))))))
  · simp only [true_iff]
    exact Or.inr (Or.inr (Or.inr (Or.inr (Or.inr (Or.inr (Or.inr (Or.inl h5)))))))
  · simp only [Bool.and_eq_true] at h6
    obtain ⟨h6a, h6b⟩ := h6
    rw [mappedPrivate_iff] at h6b
    simp only [true_iff]
    exact Or.inr (Or.inr (Or.inr (Or.inr (Or.inr (Or.inr (Or.inr (Or.inr (Or.inl ⟨h6a, h6b⟩))))))))
  · rw [parseHost_iff]
    simp only [Bool.or_eq_true, not_or] at h2 h4
    simp only [not_or] at h3
    simp only [Bool.and_eq_true] at h6
    constructor
    · intro hx
      exact Or.inr (Or.inr (Or.inr (Or.inr (Or.inr (Or.inr (Or.inr (Or.inr (Or.inr hx))))))))
    · intro hx
      rcases hx with hx | hx | hx | hx | hx | hx | hx | hx | ⟨hxa, hxb⟩ | hx
      · exact absurd hx h1
      · exact absurd hx h2.1
      · exact absurd hx h2.2
      · exact absurd hx h3.1
      · exact absurd hx h3.2
      · exact absurd hx h4.1
      · exact absurd hx h4.2
      · exact absurd hx h5
      · exact absurd (And.intro hxa (mappedPrivate_iff _ |>.mpr hxb)) h6
      · exact hx

/-- Claim C2: `validateImageUrl` applies the gates in order — MISSING_URL for
empty, URL_TOO_LONG for length > 4096, INVALID_URL for unparseable,
HTTPS_REQUIRED for a non-HTTPS scheme, CREDENTIALS_IN_URL for embedded
userinfo, PRIVATE_HOST when the private-host predicate holds on the lowercased
hostname, DOMAIN_NOT_ALLOWED when that hostname is not in the allowed set —
returning valid otherwise; and the private-host predicate holds exactly for
the literal localhost, `.local`/`.internal` suffixes, the IPv6
loopback/unspecified/unique-local/link-local forms, IPv4-mapped IPv6 mapping
to a private IPv4, and strict-decimal IPv4 addresses in the fourteen listed
CIDR ranges. -/
theorem validateImageUrl_gates (rawUrl : String) (parsed? : Option URLParts)
    (allowed : List String) :
    ((validateImageUrl rawUrl parsed? allowed).errorCode = some "MISSING_URL"
      ↔ rawUrl.length = 0)
    ∧ ((validateImageUrl rawUrl parsed? allowed).errorCode = some "URL_TOO_LONG"
      ↔ 0 < rawUrl.length ∧ 4096 < rawUrl.length)
    ∧ ((validateImageUrl rawUrl parsed? allowed).errorCode = some "INVALID_URL"
      ↔ 0 < rawUrl.length ∧ rawUrl.length ≤ 4096 ∧ parsed? = none)
    ∧ (∀ p, parsed? = some p → 0 < rawUrl.length → rawUrl.length ≤ 4096 →
        (((validateImageUrl rawUrl parsed? allowed).errorCode = some "HTTPS_REQUIRED"
            ↔ p.protocol ≠ "https:")
         ∧ ((validateImageUrl rawUrl parsed? allowed).errorCode = some "CREDENTIALS_IN_URL"
            ↔ p.protocol = "https:" ∧ (p.username ≠ "" ∨ p.password ≠ ""))
         ∧ ((validateImageUrl rawUrl parsed? allowed).errorCode = some "PRIVATE_HOST"
            ↔ p.protocol = "https:" ∧ p.username = "" ∧ p.password = ""
              ∧ privateHostSpec (lowerStr p.hostname))
         ∧ ((validateImageUrl rawUrl parsed? allowed).errorCode = some "DOMAIN_NOT_ALLOWED"
            ↔ p.protocol = "https:" ∧ p.username = "" ∧ p.password = ""
              ∧ ¬ privateHostSpec (lowerStr p.hostname) ∧ lowerStr p.hostname ∉ allowed)
         ∧ (validateImageUrl rawUrl parsed? allowed = .valid
            ↔ p.protocol = "https:" ∧ p.username = "" ∧ p.password = ""
              ∧ ¬ privateHostSpec (lowerStr p.hostname) ∧ lowerStr p.hostname ∈ allowed)))
    ∧ (∀ hostname, isPrivateHost hostname = true ↔ privateHostSpec hostname) := by
  refine ⟨?_, ?_, ?_, ?_, isPrivateHost_iff⟩
  · rcases parsed? with _ | p <;>
    · unfold validateImageUrl
      dsimp only
      split_ifs <;> simp_all [ValidationResult.errorCode, MAX_URL_LENGTH]
  · rcases parsed? with _ | p <;>
    · unfold validateImageUrl
      dsimp only
      split_ifs <;> simp_all [ValidationResult.errorCode, MAX_URL_LENGTH]
      all_goals omega
  · rcases parsed? with _ | p <;>
    · unfold validateImageUrl
      dsimp only
      split_ifs <;> simp_all [ValidationResult.errorCode, MAX_URL_LENGTH]
      all_goals omega
  · intro p hps h0 h1
    subst hps
    unfold validateImageUrl
    rw [if_neg (by omega), if_neg (by simp only [MAX_URL_LENGTH]; omega)]
    dsimp only
    split_ifs with hp1 hp2 hp3 hp4 <;>
      simp_all [ValidationResult.errorCode, isPrivateHost_iff]
    all_goals tauto

/-- Witness: the gate characterization applied at a concrete private-host URL. -/
theorem validateImageUrl_gates_witness :
    (validateImageUrl "https://x" (some ⟨"https:", "", "", "10.0.0.1"⟩)
      ["example.com"]).errorCode = some "PRIVATE_HOST" := by
  have hgates := (validateImageUrl_gates "https://x"
    (some ⟨"https:", "", "", "10.0.0.1"⟩) ["example.com"]).2.2.2.1
    ⟨"https:", "", "", "10.0.0.1"⟩ rfl (by decide) (by decide)
  refine hgates.2.2.1.mpr ⟨rfl, rfl, rfl, ?_⟩
  refine Or.inr (Or.inr (Or.inr (Or.inr (Or.inr (Or.inr (Or.inr (Or.inr (Or.inr
    ⟨167772161, ?_, ?_⟩))))))))
  · decide
  · unfold privateIPv4Ranges
    omega

/-! ## Upstream fetcher (lib/fetcher.ts)
The network is modelled as a total map from URL to response; WHATWG URL
resolution (`new URL(location, base)`) and URL parsing are supplied as
oracles, exactly as the validator receives its parse outcome. The streamed
body is a list of chunks; the model counts the chunks consumed so that
"no body bytes are read" is expressible. -/

/-- The fields of an upstream `fetch` response that the fetcher reads.
`contentLength` models a well-formed numeric Content-Length header
(`parseInt(h ?? '0', 10)` of the raw value); `body = none` models a null
body stream. -/
structure UpstreamResponse where
  status : Nat
  location : Option String := none
  contentType : Option String := none
  contentLength : Option Nat := none
  body : Option (List (List Nat)) := none

/-- `Response.ok`: status in the 2xx range. -/
def respOk (status : Nat) : Bool := 200 ≤ status && status < 300

/-- lib/fetcher.ts `isRedirect`. -/
def isRedirect (status : Nat) : Bool :=
  status == 301 || status == 302 || status == 303 || status == 307 || status == 308

structure FetchError where
  status : Nat
  code : String
  message : String
deriving DecidableEq, Repr

inductive FetchOutcome where
  | success (data : List Nat) (contentType : String) (originalSize : Nat)
  | failure (e : FetchError)
deriving DecidableEq, Repr

/-- JS `content-type` normalisation: strip parameters after `;`, trim,
lowercase. The trim only matters when parameters are present. -/
def takeBeforeSemi : List Char → List Char
  | [] => []
  | c :: rest => if c = ';' then [] else c :: takeBeforeSemi rest

def trimChars (l : List Char) : List Char :=
  ((l.dropWhile Char.isWhitespace).reverse.dropWhile Char.isWhitespace).reverse

def normalizeContentType (raw : String) : String :=
  lowerStr (String.mk (trimChars (takeBeforeSemi raw.data)))

/-- The chunked read loop: returns `(none, k)` when the running total crossed
`maxSizeBytes` after consuming `k` chunks (the reader is cancelled), or
`(some data, k)` when the stream completed with all chunks consumed. -/
def readChunks (maxSizeBytes : Nat) : Nat → List (List Nat) → Option (List Nat) × Nat
  | _, [] => (some [], 0)
  | totalBytes, v :: rest =>
    if totalBytes + v.length > maxSizeBytes then (none, 1)
    else
      let r := readChunks maxSizeBytes (totalBytes + v.length) rest
      (r.1.map (v ++ ·), r.2 + 1)

/-- Processing of a non-redirect response (lib/fetcher.ts lines 113-197):
status gate with the 403→502 remap, Content-Type gate, declared-size fast
reject, then the streaming read with size enforcement. The second component
counts body chunks consumed. -/
def processResponse (maxSizeBytes : Nat) (resp : UpstreamResponse) : FetchOutcome × Nat :=
  if !respOk resp.status then
    (.failure ⟨if resp.status == 403 then 502 else resp.status, "UPSTREAM_ERROR",
      "Upstream returned HTTP error"⟩, 0)
  else if !strStartsWith (resp.contentType.getD "") "image/" then
    (.failure ⟨400, "INVALID_CONTENT_TYPE", "Upstream returned non-image Content-Type"⟩, 0)
  else if resp.contentLength.getD 0 > maxSizeBytes then
    (.failure ⟨413, "IMAGE_TOO_LARGE", "Image size exceeds maximum"⟩, 0)
  else
    match resp.body with
    | none => (.failure ⟨502, "EMPTY_RESPONSE", "Upstream returned empty response body"⟩, 0)
    | some chunks =>
      match readChunks maxSizeBytes 0 chunks with
      | (none, k) => (.failure ⟨413, "IMAGE_TOO_LARGE", "Image exceeded maximum size"⟩, k)
      | (some data, k) =>
        if data.length = 0 then
          (.failure ⟨502, "EMPTY_BODY", "Upstream returned zero bytes"⟩, k)
        else
          (.success data (normalizeContentType (resp.contentType.getD "")) data.length, k)

/-- The redirect-following loop of `fetchUpstreamImage`, with hop fuel
(`hop = 0..5`, so fuel 6). `parse` and `resolve` are the WHATWG URL oracles;
`net` maps a URL to the upstream response. Returns the outcome together with
the number of upstream GETs issued. -/
def fetchLoop (parse : String → Option URLParts) (resolve : String → String → Option String)
    (net : String → UpstreamResponse) (allowedDomains : Option (List String))
    (maxSizeBytes : Nat) : Nat → String → FetchOutcome × Nat
  | 0, _ => (.failure ⟨502, "TOO_MANY_REDIRECTS", "Upstream exceeded maximum of 5 redirects"⟩, 0)
  | fuel + 1, currentUrl =>
    let resp := net currentUrl
    if isRedirect resp.status then
      match resp.location with
      | none => (.failure ⟨502, "INVALID_REDIRECT",
          "Upstream returned a redirect without a Location header"⟩, 1)
      | some loc =>
        match resolve loc currentUrl with
        | none => (.failure ⟨502, "INVALID_REDIRECT",
            "Upstream returned an invalid redirect Location"⟩, 1)
        | some redirectHref =>
          match allowedDomains with
          | some doms =>
            if validateImageUrl redirectHref (parse redirectHref) doms ≠ .valid then
              (.failure ⟨403, "REDIRECT_BLOCKED", "Redirect blocked"⟩, 1)
            else
              let r := fetchLoop parse resolve net allowedDomains maxSizeBytes fuel redirectHref
              (r.1, r.2 + 1)
          | none =>
            let r := fetchLoop parse resolve net allowedDomains maxSizeBytes fuel redirectHref
            (r.1, r.2 + 1)
    else
      let r := processResponse maxSizeBytes resp
      (r.1, 1)

/-- lib/fetcher.ts `fetchUpstreamImage` (without timeout/network exceptions,
which are outside the deterministic model): at most 5 redirect hops. -/
def fetchUpstreamImage (parse : String → Option URLParts)
    (resolve : String → String → Option String) (net : String → UpstreamResponse)
    (allowedDomains : Option (List String)) (maxSizeBytes : Nat) (url : String) :
    FetchOutcome × Nat :=
  fetchLoop parse resolve net allowedDomains maxSizeBytes 6 url

def FetchOutcome.errStatus : FetchOutcome → Option Nat
  | .success _ _ _ => none
  | .failure e => some e.status

def FetchOutcome.errCode : FetchOutcome → Option String
  | .success _ _ _ => none
  | .failure e => some e.code

lemma readChunks_cancel (maxSizeBytes : Nat) (chunks : List (List Nat)) (total : Nat)
    (htot : total ≤ maxSizeBytes)
    (hsum : total + (chunks.map List.length).sum > maxSizeBytes) :
    (readChunks maxSizeBytes total chunks).1 = none := by
  induction chunks generalizing total with
  | nil =>
    simp at hsum
    omega
  | cons v rest ih =>
    simp only [readChunks]
    split
    · rfl
    · rename_i hle
      push_neg at hle
      have hr := ih (total + v.length) hle (by simp at hsum ⊢; omega)
      simp [hr]

/-- Claim C3: when the upstream response passes the status and content-type
gates and declares a Content-Length above `maxSizeBytes`, the fetch fails
IMAGE_TOO_LARGE (413) with zero body chunks consumed; and independently of
the declared length, a body whose total byte count exceeds `maxSizeBytes`
makes the fetch fail IMAGE_TOO_LARGE (413) (the mid-stream cancel). -/
theorem fetcher_size_limits (resp : UpstreamResponse) (maxSizeBytes : Nat) :
    (∀ n, resp.contentLength = some n → n > maxSizeBytes →
      respOk resp.status = true →
      strStartsWith (resp.contentType.getD "") "image/" = true →
      processResponse maxSizeBytes resp =
        (.failure ⟨413, "IMAGE_TOO_LARGE", "Image size exceeds maximum"⟩, 0))
    ∧ (∀ chunks, resp.body = some chunks →
        (chunks.map List.length).sum > maxSizeBytes →
        respOk resp.status = true →
        strStartsWith (resp.contentType.getD "") "image/" = true →
        (processResponse maxSizeBytes resp).1.errStatus = some 413
        ∧ (processResponse maxSizeBytes resp).1.errCode = some "IMAGE_TOO_LARGE")
    ∧ (∀ parse resolve net allowed u, net u = resp → isRedirect resp.status = false →
        (fetchUpstreamImage parse resolve net allowed maxSizeBytes u).1 =
          (processResponse maxSizeBytes resp).1) := by
  refine ⟨?_, ?_, ?_⟩
  · intro n hn hgt hok hct
    unfold processResponse
    rw [hn]
    simp [hok, hct, hgt]
  · intro chunks hb hsum hok hct
    unfold processResponse
    rw [hb]
    simp only [hok, hct, Bool.not_true, Bool.false_eq_true, if_false]
    by_cases hdecl : resp.contentLength.getD 0 > maxSizeBytes
    · simp [hdecl, FetchOutcome.errStatus, FetchOutcome.errCode]
    · simp only [hdecl, if_false]
      have hcancel := readChunks_cancel maxSizeBytes chunks 0 (by omega) (by omega)
      rcases hrc : readChunks maxSizeBytes 0 chunks with ⟨r1, k⟩
      rw [hrc] at hcancel
      simp at hcancel
      subst hcancel
      simp [FetchOutcome.errStatus, FetchOutcome.errCode]
  · intro parse resolve net allowed u hnet hred
    subst hnet
    unfold fetchUpstreamImage fetchLoop
    simp [hred]

/-- Witness: the size gates applied concretely — a declared 100-byte image
against a 50-byte limit fails fast with no chunks read, and a lying
Content-Length with a 60-byte body against a 50-byte limit is cancelled. -/
theorem fetcher_size_limits_witness :
    processResponse 50 ⟨200, none, some "image/png", some 100, some [[1, 2, 3]]⟩ =
      (.failure ⟨413, "IMAGE_TOO_LARGE", "Image size exceeds maximum"⟩, 0)
    ∧ (processResponse 50
        ⟨200, none, some "image/png", some 10, some [List.replicate 60 7]⟩).1.errCode =
      some "IMAGE_TOO_LARGE" :=
  ⟨(fetcher_size_limits ⟨200, none, some "image/png", some 100, some [[1, 2, 3]]⟩ 50).1
      100 rfl (by decide) (by decide) (by decide),
   ((fetcher_size_limits ⟨200, none, some "image/png", some 10, some [List.replicate 60 7]⟩ 50).2.1
      [List.replicate 60 7] rfl (by decide) (by decide) (by decide)).2⟩

lemma fetchLoop_all_redirect (parse : String → Option URLParts)
    (resolve : String → String → Option String) (net : String → UpstreamResponse)
    (allowedDomains : Option (List String)) (maxSizeBytes : Nat)
    (hAll : ∀ v, isRedirect (net v).status = true
      ∧ ∃ loc r, (net v).location = some loc ∧ resolve loc v = some r
        ∧ (∀ doms, allowedDomains = some doms →
            validateImageUrl r (parse r) doms = .valid)) :
    ∀ fuel u, (fetchLoop parse resolve net allowedDomains maxSizeBytes fuel u).1 =
      .failure ⟨502, "TOO_MANY_REDIRECTS", "Upstream exceeded maximum of 5 redirects"⟩ := by
  intro fuel
  induction fuel with
  | zero => intro u; rfl
  | succ n ih =>
    intro u
    obtain ⟨hred, loc, r, hloc, hres, hval⟩ := hAll u
    simp only [fetchLoop, hred, if_true, hloc, hres]
    match hd : allowedDomains with
    | some doms =>
      have hv := hval doms rfl
      simp [hv, ih r]
    | none =>
      simp [ih r]

/-- Claim C4: on a 301/302/303/307/308 response the fetcher resolves the
Location against the current URL and re-validates the resolved URL: a missing
or unresolvable Location yields INVALID_REDIRECT (502); a resolved URL that
fails validation yields REDIRECT_BLOCKED (403); and a chain of more than five
redirects yields TOO_MANY_REDIRECTS (502). -/
theorem fetcher_redirect_handling (parse : String → Option URLParts)
    (resolve : String → String → Option String) (net : String → UpstreamResponse)
    (allowed : List String) (maxSizeBytes : Nat) (u : String) :
    (isRedirect (net u).status = true → (net u).location = none →
      (fetchUpstreamImage parse resolve net (some allowed) maxSizeBytes u).1 =
        .failure ⟨502, "INVALID_REDIRECT",
          "Upstream returned a redirect without a Location header"⟩)
    ∧ (∀ loc, isRedirect (net u).status = true → (net u).location = some loc →
        resolve loc u = none →
        (fetchUpstreamImage parse resolve net (some allowed) maxSizeBytes u).1 =
          .failure ⟨502, "INVALID_REDIRECT",
            "Upstream returned an invalid redirect Location"⟩)
    ∧ (∀ loc r, isRedirect (net u).status = true → (net u).location = some loc →
        resolve loc u = some r → validateImageUrl r (parse r) allowed ≠ .valid →
        (fetchUpstreamImage parse resolve net (some allowed) maxSizeBytes u).1 =
          .failure ⟨403, "REDIRECT_BLOCKED", "Redirect blocked"⟩)
    ∧ ((∀ v, isRedirect (net v).status = true
          ∧ ∃ loc r, (net v).location = some loc ∧ resolve loc v = some r
            ∧ validateImageUrl r (parse r) allowed = .valid) →
        (fetchUpstreamImage parse resolve net (some allowed) maxSizeBytes u).1 =
          .failure ⟨502, "TOO_MANY_REDIRECTS",
            "Upstream exceeded maximum of 5 redirects"⟩) := by
  refine ⟨?_, ?_, ?_, ?_⟩
  · intro hred hloc
    unfold fetchUpstreamImage fetchLoop
    simp [hred, hloc]
  · intro loc hred hloc hres
    unfold fetchUpstreamImage fetchLoop
    simp [hred, hloc, hres]
  · intro loc r hred hloc hres hval
    unfold fetchUpstreamImage fetchLoop
    simp [hred, hloc, hres, hval]
  · intro hAll
    exact fetchLoop_all_redirect parse resolve net (some allowed) maxSizeBytes
      (fun v => by
        obtain ⟨h1, loc, r, h2, h3, h4⟩ := hAll v
        exact ⟨h1, loc, r, h2, h3, fun doms hd => by cases hd; exact h4⟩) 6 u

/-- Witness: redirect handling applied at a concrete environment — a 301 to a
private address is blocked 403, and an endless 301 loop is cut off as
TOO_MANY_REDIRECTS. -/
theorem fetcher_redirect_handling_witness :
    (fetchUpstreamImage (fun _ => some ⟨"https:", "", "", "127.0.0.1"⟩)
      (fun loc _ => some loc)
      (fun _ => ⟨301, some "https://127.0.0.1/", none, none, none⟩)
      (some ["prod-files-secure.s3.us-west-2.amazonaws.com"]) 100
      "https://prod-files-secure.s3.us-west-2.amazonaws.com/w/b/f.jpg").1 =
        .failure ⟨403, "REDIRECT_BLOCKED", "Redirect blocked"⟩
    ∧ (fetchUpstreamImage (fun _ => some ⟨"https:", "", "", "x.example.com"⟩)
        (fun loc _ => some loc)
        (fun _ => ⟨302, some "https://x.example.com/a", none, none, none⟩)
        (some ["x.example.com"]) 100 "https://x.example.com/a").1 =
          .failure ⟨502, "TOO_MANY_REDIRECTS",
            "Upstream exceeded maximum of 5 redirects"⟩ := by
  constructor
  · exact (fetcher_redirect_handling (fun _ => some ⟨"https:", "", "", "127.0.0.1"⟩)
      (fun loc _ => some loc)
      (fun _ => ⟨301, some "https://127.0.0.1/", none, none, none⟩)
      ["prod-files-secure.s3.us-west-2.amazonaws.com"] 100
      "https://prod-files-secure.s3.us-west-2.amazonaws.com/w/b/f.jpg").2.2.1
      "https://127.0.0.1/" "https://127.0.0.1/" (by decide) rfl rfl (by decide)
  · exact (fetcher_redirect_handling (fun _ => some ⟨"https:", "", "", "x.example.com"⟩)
      (fun loc _ => some loc)
      (fun _ => ⟨302, some "https://x.example.com/a", none, none, none⟩)
      ["x.example.com"] 100 "https://x.example.com/a").2.2.2
      (fun v => ⟨by decide, "https://x.example.com/a", "https://x.example.com/a",
        rfl, rfl, by decide⟩)

/-! ## Pipeline error rendering (lib/image-pipeline.ts lines 198-231) -/

inductive UpstreamErrorMode where
  | relay | cacheMiss
deriving DecidableEq, Repr

/-- The JSON error body the pipeline sends for a fetcher error. -/
structure ErrorBody where
  status : Nat
  code : String
  message : String
deriving DecidableEq, Repr

def IMAGE_NOT_CACHED_HINT : String :=
  "This image is not yet cached. Use the proxy route to cache it first."

/-- The pipeline's error response: in cache-miss mode, upstream 403/404/502
become 404 IMAGE_NOT_CACHED; otherwise the fetcher error is sent verbatim. -/
def renderFetchError (mode : UpstreamErrorMode) (fe : FetchError) : ErrorBody :=
  if mode = .cacheMiss ∧ (fe.status = 403 ∨ fe.status = 404 ∨ fe.status = 502) then
    ⟨404, "IMAGE_NOT_CACHED", IMAGE_NOT_CACHED_HINT⟩
  else ⟨fe.status, fe.code, fe.message⟩

/-- Claim C5: a non-redirect upstream response with a non-OK HTTP status makes
the fetcher return UPSTREAM_ERROR at the upstream status, except upstream 403
which is remapped to 502; in cache-miss mode the pipeline rewrites fetcher
errors with status 403/404/502 to 404 IMAGE_NOT_CACHED, and in relay mode it
returns every fetcher error verbatim. -/
theorem upstream_error_relay (net : String → UpstreamResponse)
    (parse : String → Option URLParts) (resolve : String → String → Option String)
    (allowedDomains : Option (List String)) (maxSizeBytes : Nat) (u : String) :
    (isRedirect (net u).status = false → respOk (net u).status = false →
      (fetchUpstreamImage parse resolve net allowedDomains maxSizeBytes u).1 =
        .failure ⟨if (net u).status = 403 then 502 else (net u).status,
          "UPSTREAM_ERROR", "Upstream returned HTTP error"⟩)
    ∧ (∀ fe : FetchError, renderFetchError .relay fe = ⟨fe.status, fe.code, fe.message⟩)
    ∧ (∀ fe : FetchError, fe.status = 403 ∨ fe.status = 404 ∨ fe.status = 502 →
        renderFetchError .cacheMiss fe = ⟨404, "IMAGE_NOT_CACHED", IMAGE_NOT_CACHED_HINT⟩)
    ∧ (∀ fe : FetchError, ¬(fe.status = 403 ∨ fe.status = 404 ∨ fe.status = 502) →
        renderFetchError .cacheMiss fe = ⟨fe.status, fe.code, fe.message⟩) := by
  refine ⟨?_, ?_, ?_, ?_⟩
  · intro hred hok
    unfold fetchUpstreamImage fetchLoop processResponse
    simp only [hred, Bool.false_eq_true, if_false, hok, Bool.not_false, if_true]
    by_cases h403 : (net u).status = 403 <;> simp [h403]
  · intro fe
    simp [renderFetchError]
  · intro fe hst
    simp [renderFetchError, hst]
  · intro fe hst
    simp [renderFetchError, hst]

/-- Witness: a 403 upstream is surfaced as 502 UPSTREAM_ERROR, and in
cache-miss mode that error is rewritten to 404 IMAGE_NOT_CACHED while relay
returns it verbatim. -/
theorem upstream_error_relay_witness :
    (fetchUpstreamImage (fun _ => none) (fun _ _ => none)
      (fun _ => ⟨403, none, none, none, none⟩) none 100 "https://u").1 =
      .failure ⟨502, "UPSTREAM_ERROR", "Upstream returned HTTP error"⟩
    ∧ renderFetchError .cacheMiss ⟨502, "UPSTREAM_ERROR", "Upstream returned HTTP error"⟩ =
      ⟨404, "IMAGE_NOT_CACHED", IMAGE_NOT_CACHED_HINT⟩
    ∧ renderFetchError .relay ⟨502, "UPSTREAM_ERROR", "Upstream returned HTTP error"⟩ =
      ⟨502, "UPSTREAM_ERROR", "Upstream returned HTTP error"⟩ := by
  have ht := upstream_error_relay (fun _ => ⟨403, none, none, none, none⟩)
    (fun _ => none) (fun _ _ => none) none 100 "https://u"
  exact ⟨ht.1 (by decide) (by decide),
    ht.2.2.1 ⟨502, "UPSTREAM_ERROR", "Upstream returned HTTP error"⟩ (by simp),
    ht.2.1 ⟨502, "UPSTREAM_ERROR", "Upstream returned HTTP error"⟩⟩

/-! ## Image response headers (lib/response.ts `sendImageResponse`) -/

inductive CacheTier where
  | L1_BROWSER | L2_EDGE | L3_PERSISTENT | ORIGIN
deriving DecidableEq, Repr

def CacheTier.render : CacheTier → String
  | .L1_BROWSER => "L1_BROWSER"
  | .L2_EDGE => "L2_EDGE"
  | .L3_PERSISTENT => "L3_PERSISTENT"
  | .ORIGIN => "ORIGIN"

/-- The headers `sendImageResponse` sets on an image response. -/
structure ImageResponseHeaders where
  contentType : String
  contentLength : Nat
  xCache : String
  xCacheTier : String
  xOptimizedSize : Nat
  xOriginalSize : Option Nat
deriving DecidableEq, Repr

/-- lib/response.ts `sendImageResponse` (header computation). -/
def sendImageResponse (dataLength : Nat) (contentType : String) (cacheTier : CacheTier)
    (originalSize : Option Nat) : ImageResponseHeaders :=
  { contentType := contentType
    contentLength := dataLength
    xCache := if cacheTier = .ORIGIN then "MISS" else "HIT"
    xCacheTier := cacheTier.render
    xOptimizedSize := dataLength
    xOriginalSize := originalSize }

/-- Where an image response comes from in `runImagePipeline`, and the
`(cacheTier, originalSize)` arguments the pipeline passes for it:
an L2 hit, an L3 hit, or a single-flight success (leader or coalesced
follower). -/
inductive ServeSource where
  | l2Hit
  | l3Hit
  | originSuccess (coalesced : Bool) (originalSize : Nat)
deriving DecidableEq, Repr

/-- The `(cacheTier, originalSize)` pair `runImagePipeline` sends for each
serve source (image-pipeline.ts lines 74-111 and 233-241). -/
def pipelineResponseArgs : ServeSource → CacheTier × Option Nat
  | .l2Hit => (.L2_EDGE, none)
  | .l3Hit => (.L3_PERSISTENT, none)
  | .originSuccess coalesced originalSize =>
    (if coalesced then .L2_EDGE else .ORIGIN,
     if coalesced then none else some originalSize)

/-- Claim C7: for every image response the pipeline sends, X-Cache is HIT iff
the tier is not ORIGIN, X-Original-Size is present iff the tier is ORIGIN,
and coalesced followers report L2_EDGE with X-Cache HIT and no
X-Original-Size. -/
theorem response_headers_hit_iff (src : ServeSource) (dataLength : Nat)
    (contentType : String) :
    ((sendImageResponse dataLength contentType (pipelineResponseArgs src).1
        (pipelineResponseArgs src).2).xCache = "HIT"
      ↔ (pipelineResponseArgs src).1 ≠ .ORIGIN)
    ∧ ((sendImageResponse dataLength contentType (pipelineResponseArgs src).1
        (pipelineResponseArgs src).2).xOriginalSize ≠ none
      ↔ (pipelineResponseArgs src).1 = .ORIGIN)
    ∧ (∀ sz, src = .originSuccess true sz →
        (pipelineResponseArgs src).1 = .L2_EDGE
        ∧ (sendImageResponse dataLength contentType (pipelineResponseArgs src).1
            (pipelineResponseArgs src).2).xCache = "HIT"
        ∧ (sendImageResponse dataLength contentType (pipelineResponseArgs src).1
            (pipelineResponseArgs src).2).xOriginalSize = none) := by
  rcases src with _ | _ | ⟨c, sz⟩
  · refine ⟨by simp [sendImageResponse, pipelineResponseArgs], ?_, by simp⟩
    simp [sendImageResponse, pipelineResponseArgs]
  · refine ⟨by simp [sendImageResponse, pipelineResponseArgs], ?_, by simp⟩
    simp [sendImageResponse, pipelineResponseArgs]
  · cases c
    · refine ⟨by simp [sendImageResponse, pipelineResponseArgs], ?_, by simp⟩
      simp [sendImageResponse, pipelineResponseArgs]
    · refine ⟨by simp [sendImageResponse, pipelineResponseArgs], ?_, ?_⟩
      · simp [sendImageResponse, pipelineResponseArgs]
      · intro sz' hsz
        simp at hsz
        simp [sendImageResponse, pipelineResponseArgs, hsz]

/-- Witness: the header relation applied to a coalesced follower. -/
theorem response_headers_hit_iff_witness :
    (pipelineResponseArgs (.originSuccess true 1000)).1 = .L2_EDGE
    ∧ (sendImageResponse 5 "image/webp" (pipelineResponseArgs (.originSuccess true 1000)).1
        (pipelineResponseArgs (.originSuccess true 1000)).2).xCache = "HIT"
    ∧ (sendImageResponse 5 "image/webp" (pipelineResponseArgs (.originSuccess true 1000)).1
        (pipelineResponseArgs (.originSuccess true 1000)).2).xOriginalSize = none :=
  (response_headers_hit_iff (.originSuccess true 1000) 5 "image/webp").2.2 1000 rfl

/-! ## Transform-option parsing (lib/optimizer.ts `parseTransformOptions`) -/

/-- JS `parseInt(s, 10)`: skip leading whitespace, optional sign, then the
leading run of decimal digits; NaN (modelled as `none`) when no digits. -/
def parseIntJS (s : String) : Option Int :=
  match s.data.dropWhile Char.isWhitespace with
  | '-' :: r =>
    if (r.takeWhile Char.isDigit).isEmpty then none
    else some (-(Int.ofNat (digitsToNat (r.takeWhile Char.isDigit))))
  | '+' :: r =>
    if (r.takeWhile Char.isDigit).isEmpty then none
    else some (Int.ofNat (digitsToNat (r.takeWhile Char.isDigit)))
  | r =>
    if (r.takeWhile Char.isDigit).isEmpty then none
    else some (Int.ofNat (digitsToNat (r.takeWhile Char.isDigit)))

/-- The repeated `parseInt` + range-check pattern of `parseTransformOptions`. -/
def parseBoundedInt (s : String) (lo hi : Int) : Option Nat :=
  match parseIntJS s with
  | some n => if lo ≤ n ∧ n ≤ hi then some n.toNat else none
  | none => none

/-- The raw query-string parameters the optimizer reads. -/
structure Query where
  w : Option String := none
  h : Option String := none
  fmt : Option String := none
  q : Option String := none
  fit : Option String := none
deriving DecidableEq, Repr

def parseFmt (s : String) : Option ImageFormat :=
  if lowerStr s = "webp" then some .webp
  else if lowerStr s = "avif" then some .avif
  else if lowerStr s = "png" then some .png
  else if lowerStr s = "jpeg" then some .jpeg
  else none

def parseFit (s : String) : Option FitMode :=
  if lowerStr s = "cover" then some .cover
  else if lowerStr s = "contain" then some .contain
  else if lowerStr s = "fill" then some .fill
  else if lowerStr s = "inside" then some .inside
  else if lowerStr s = "outside" then some .outside
  else none

/-- lib/optimizer.ts `parseTransformOptions`. -/
def parseTransformOptions (query : Query) : TransformOptions :=
  { width := match query.w with
      | some s => parseBoundedInt s 1 10000
      | none => none
    height := match query.h with
      | some s => parseBoundedInt s 1 10000
      | none => none
    format := match query.fmt with
      | some s => parseFmt s
      | none => none
    quality := match query.q with
      | some s => parseBoundedInt s 1 100
      | none => none
    fit := match query.fit with
      | some s => parseFit s
      | none => none }

lemma parseBoundedInt_some_iff (s : String) (lo hi : Int) (hlo : 0 < lo) (n : Nat) :
    parseBoundedInt s lo hi = some n ↔
      parseIntJS s = some (n : Int) ∧ lo ≤ (n : Int) ∧ (n : Int) ≤ hi := by
  unfold parseBoundedInt
  cases hp : parseIntJS s with
  | none => simp
  | some k =>
    dsimp only
    by_cases hb : lo ≤ k ∧ k ≤ hi
    · have hk : 0 ≤ k := le_trans (le_of_lt hlo) hb.1
      rw [if_pos hb]
      simp only [Option.some.injEq]
      constructor
      · intro hn
        subst hn
        rw [Int.toNat_of_nonneg hk]
        exact ⟨rfl, hb⟩
      · rintro ⟨hkn, -⟩
        cases hkn
        simp
    · rw [if_neg hb]
      constructor
      · intro hc
        exact absurd hc (by simp)
      · rintro ⟨hkn, hbnds⟩
        cases hkn
        exact absurd hbnds hb

/-- Claim C8: `parseTransformOptions` keeps `w`/`h` only when they parse as
integers in 1-10000, `q` only when an integer in 1-100, `fmt` only when its
lowercasing is webp/avif/png/jpeg, and `fit` only when its lowercasing is
cover/contain/fill/inside/outside; every other supplied value is silently
dropped, leaving the result exactly as if the parameter were absent. -/
theorem parseTransformOptions_spec (query : Query) :
    (∀ n, (parseTransformOptions query).width = some n ↔
      ∃ s, query.w = some s ∧ parseIntJS s = some (n : Int)
        ∧ 1 ≤ (n : Int) ∧ (n : Int) ≤ 10000)
    ∧ (∀ n, (parseTransformOptions query).height = some n ↔
        ∃ s, query.h = some s ∧ parseIntJS s = some (n : Int)
          ∧ 1 ≤ (n : Int) ∧ (n : Int) ≤ 10000)
    ∧ (∀ n, (parseTransformOptions query).quality = some n ↔
        ∃ s, query.q = some s ∧ parseIntJS s = some (n : Int)
          ∧ 1 ≤ (n : Int) ∧ (n : Int) ≤ 100)
    ∧ (∀ f, (parseTransformOptions query).format = some f ↔
        ∃ s, query.fmt = some s ∧ lowerStr s = f.render ∧ f ≠ .original)
    ∧ (∀ m, (parseTransformOptions query).fit = some m ↔
        ∃ s, query.fit = some s ∧ lowerStr s = m.render)
    ∧ (∀ s, query.w = some s → parseBoundedInt s 1 10000 = none →
        parseTransformOptions query = parseTransformOptions { query with w := none })
    ∧ (∀ s, query.h = some s → parseBoundedInt s 1 10000 = none →
        parseTransformOptions query = parseTransformOptions { query with h := none })
    ∧ (∀ s, query.q = some s → parseBoundedInt s 1 100 = none →
        parseTransformOptions query = parseTransformOptions { query with q := none })
    ∧ (∀ s, query.fmt = some s → parseFmt s = none →
        parseTransformOptions query = parseTransformOptions { query with fmt := none })
    ∧ (∀ s, query.fit = some s → parseFit s = none →
        parseTransformOptions query = parseTransformOptions { query with fit := none }) := by
  refine ⟨?_, ?_, ?_, ?_, ?_, ?_, ?_, ?_, ?_, ?_⟩
  · intro n
    cases hw : query.w with
    | none => simp [parseTransformOptions, hw]
    | some s =>
      simp only [parseTransformOptions, hw, Option.some.injEq]
      rw [parseBoundedInt_some_iff s 1 10000 (by norm_num) n]
      constructor
      · intro hx
        exact ⟨s, rfl, hx⟩
      · rintro ⟨s', hs', hx⟩
        cases hs'
        exact hx
  · intro n
    cases hh : query.h with
    | none => simp [parseTransformOptions, hh]
    | some s =>
      simp only [parseTransformOptions, hh, Option.some.injEq]
      rw [parseBoundedInt_some_iff s 1 10000 (by norm_num) n]
      constructor
      · intro hx
        exact ⟨s, rfl, hx⟩
      · rintro ⟨s', hs', hx⟩
        cases hs'
        exact hx
  · intro n
    cases hq : query.q with
    | none => simp [parseTransformOptions, hq]
    | some s =>
      simp only [parseTransformOptions, hq, Option.some.injEq]
      rw [parseBoundedInt_some_iff s 1 100 (by norm_num) n]
      constructor
      · intro hx
        exact ⟨s, rfl, hx⟩
      · rintro ⟨s', hs', hx⟩
        cases hs'
        exact hx
  · intro f
    cases hf : query.fmt with
    | none => simp [parseTransformOptions, hf]
    | some s =>
      simp only [parseTransformOptions, hf]
      unfold parseFmt
      split_ifs with h1 h2 h3 h4 <;> cases f <;>
        simp_all [ImageFormat.render]
  · intro m
    cases hm : query.fit with
    | none => simp [parseTransformOptions, hm]
    | some s =>
      simp only [parseTransformOptions, hm]
      unfold parseFit
      split_ifs with h1 h2 h3 h4 h5 <;> cases m <;>
        simp_all [FitMode.render]
  · intro s hs hnone
    simp [parseTransformOptions, hs, hnone]
  · intro s hs hnone
    simp [parseTransformOptions, hs, hnone]
  · intro s hs hnone
    simp [parseTransformOptions, hs, hnone]
  · intro s hs hnone
    simp [parseTransformOptions, hs, hnone]
  · intro s hs hnone
    simp [parseTransformOptions, hs, hnone]

/-- Witness: `w=0`, `w=-1`, `w=10001`, `w=abc`, `fmt=xyz` are all dropped, so
the parse proceeds exactly as if the parameter were absent. -/
theorem parseTransformOptions_spec_witness :
    parseTransformOptions { w := some "0", h := some "800" } =
      parseTransformOptions { w := none, h := some "800" }
    ∧ parseTransformOptions { w := some "-1" } = parseTransformOptions { w := none }
    ∧ parseTransformOptions { w := some "10001" } = parseTransformOptions { w := none }
    ∧ parseTransformOptions { w := some "abc" } = parseTransformOptions { w := none }
    ∧ parseTransformOptions { fmt := some "xyz" } = parseTransformOptions { fmt := none } :=
  ⟨(parseTransformOptions_spec { w := some "0", h := some "800" }).2.2.2.2.2.1
      "0" rfl (by decide),
   (parseTransformOptions_spec { w := some "-1" }).2.2.2.2.2.1 "-1" rfl (by decide),
   (parseTransformOptions_spec { w := some "10001" }).2.2.2.2.2.1 "10001" rfl (by decide),
   (parseTransformOptions_spec { w := some "abc" }).2.2.2.2.2.1 "abc" rfl (by decide),
   (parseTransformOptions_spec { fmt := some "xyz" }).2.2.2.2.2.2.2.2.1 "xyz" rfl (by decide)⟩

/-! ## Cache management route (routes/cache.ts, DELETE /api/v1/cache) -/

structure CacheDeleteResponse where
  status : Nat
  code : Option String
  message : String
  purgedBy : Option String
deriving DecidableEq, Repr

/-- routes/cache.ts DELETE handler decision (the storage purge is assumed to
succeed; the catch branch is not modelled). `url`/`pageId` are the query
parameters when they are strings. -/
def cacheDeleteRoute (url pageId : Option String) : CacheDeleteResponse :=
  match url, pageId with
  | none, none =>
    ⟨400, some "MISSING_PARAMS", "Either url or page_id query parameter is required", none⟩
  | some _, _ => ⟨200, none, "Cache purged successfully", some "url"⟩
  | none, some _ => ⟨200, none, "Cache purge by page_id is queued", some "page_id"⟩

/-- Counterexample to claim C9: a DELETE with only `page_id` answers 200,
not 501 — the page_id purge is stubbed to report success as queued. -/
theorem cacheRoute_pageId_not_501 :
    (cacheDeleteRoute none (some "page-123")).status = 200
    ∧ (cacheDeleteRoute none (some "page-123")).status ≠ 501 := by
  decide

/-- Claim C9 (amended): a DELETE /api/v1/cache with a `page_id` parameter and
no `url` answers 200 with purgedBy `page_id` and the queued-stub message; the
purge itself is not implemented. -/
theorem cacheRoute_pageId_stub (pid : String) :
    cacheDeleteRoute none (some pid) =
      ⟨200, none, "Cache purge by page_id is queued", some "page_id"⟩ := rfl

/-! ## In-memory LRU edge cache (cache/memory.ts `MemoryCache`) -/

structure CacheEntry where
  data : List Nat
  contentType : String
  cachedAt : Nat
deriving DecidableEq, Repr

structure StoredEntry where
  entry : CacheEntry
  expiresAt : Nat
deriving DecidableEq, Repr

/-- The `MemoryCache` state: the key-ordered map (head = least recently
used), the limits, and the byte counter (a JS number, so an `Int`). -/
structure MemoryCache where
  entries : List (String × StoredEntry)
  maxEntries : Nat
  maxTotalBytes : Nat
  currentBytes : Int
deriving Repr

def lookupEntry (key : String) : List (String × StoredEntry) → Option StoredEntry
  | [] => none
  | (k, e) :: rest => if k = key then some e else lookupEntry key rest

def removeKey (key : String) (l : List (String × StoredEntry)) :
    List (String × StoredEntry) := l.filter (fun p => p.1 ≠ key)

/-- The eviction loop of `MemoryCache.set`: while the entry count or byte
budget is exceeded and the map is non-empty, evict the least recently used
(first) entry and subtract its bytes. -/
def evictLoop (maxEntries maxTotalBytes newLen : Nat) :
    List (String × StoredEntry) → Int → List (String × StoredEntry) × Int
  | [], bytes => ([], bytes)
  | (k, e) :: rest, bytes =>
    if rest.length + 1 ≥ maxEntries ∨ bytes + newLen > maxTotalBytes then
      evictLoop maxEntries maxTotalBytes newLen rest (bytes - e.entry.data.length)
    else ((k, e) :: rest, bytes)

/-- cache/memory.ts `MemoryCache.set`: drop an existing entry for the key,
run the eviction loop, then skip storing when the single entry exceeds the
total budget, else append as most recently used. -/
def MemoryCache.set (c : MemoryCache) (key : String) (entry : CacheEntry)
    (ttlSeconds : Nat) (now : Nat) : MemoryCache :=
  let afterRemove :=
    match lookupEntry key c.entries with
    | some existing =>
      { c with entries := removeKey key c.entries,
               currentBytes := c.currentBytes - existing.entry.data.length }
    | none => c
  let r := evictLoop c.maxEntries c.maxTotalBytes entry.data.length
    afterRemove.entries afterRemove.currentBytes
  if entry.data.length > c.maxTotalBytes then
    { afterRemove with entries := r.1, currentBytes := r.2 }
  else
    { afterRemove with
      entries := r.1 ++ [(key, ⟨entry, now + ttlSeconds * 1000⟩)],
      currentBytes := r.2 + entry.data.length }

def sumBytesNat (l : List (String × StoredEntry)) : Nat :=
  (l.map (fun p => p.2.entry.data.length)).sum

lemma evictLoop_clears (maxEntries maxTotalBytes newLen : Nat)
    (hbig : newLen > maxTotalBytes) :
    ∀ l : List (String × StoredEntry),
      evictLoop maxEntries maxTotalBytes newLen l (Int.ofNat (sumBytesNat l)) = ([], 0) := by
  intro l
  induction l with
  | nil => simp [evictLoop, sumBytesNat]
  | cons p rest ih =>
    rcases p with ⟨k, e⟩
    have hcond : Int.ofNat (sumBytesNat ((k, e) :: rest)) + newLen > maxTotalBytes := by
      have : (0 : Int) ≤ Int.ofNat (sumBytesNat ((k, e) :: rest)) := Int.ofNat_nonneg _
      omega
    have hsub : Int.ofNat (sumBytesNat ((k, e) :: rest)) - e.entry.data.length =
        Int.ofNat (sumBytesNat rest) := by
      simp [sumBytesNat]
    simp only [evictLoop, hcond, or_true, if_true]
    rw [hsub]
    exact ih

lemma removeKey_of_not_mem (key : String) (l : List (String × StoredEntry))
    (hnm : key ∉ l.map Prod.fst) : removeKey key l = l := by
  apply List.filter_eq_self.mpr
  intro p hp
  simp only [decide_eq_true_eq]
  intro hk
  exact hnm (by simpa [hk] using List.mem_map_of_mem Prod.fst hp)

lemma sum_removeKey (key : String) (e : StoredEntry) :
    ∀ l : List (String × StoredEntry), (l.map Prod.fst).Nodup →
      lookupEntry key l = some e →
      Int.ofNat (sumBytesNat (removeKey key l)) =
        Int.ofNat (sumBytesNat l) - e.entry.data.length := by
  intro l
  induction l with
  | nil =>
    intro _ hl
    simp [lookupEntry] at hl
  | cons p rest ih =>
    intro hnodup hl
    rcases p with ⟨k, e'⟩
    simp only [List.map_cons, List.nodup_cons] at hnodup
    by_cases hk : k = key
    · subst hk
      simp only [lookupEntry, if_true, eq_self_iff_true, Option.some.injEq] at hl
      subst hl
      have hrest : removeKey k rest = rest := removeKey_of_not_mem k rest hnodup.1
      simp only [removeKey, List.filter_cons, decide_eq_true_eq]
      rw [if_neg (by simp)]
      rw [show List.filter (fun p => decide (p.1 ≠ k)) rest = removeKey k rest from rfl, hrest]
      simp only [sumBytesNat, List.map_cons, List.sum_cons, Int.ofNat_eq_natCast]
      push_cast
      omega
    · simp only [lookupEntry, if_neg hk] at hl
      have ihr := ih hnodup.2 hl
      simp only [removeKey, List.filter_cons, decide_eq_true_eq]
      rw [if_pos (by simp [hk])]
      rw [show List.filter (fun p => decide (p.1 ≠ key)) rest = removeKey key rest from rfl]
      simp only [sumBytesNat, List.map_cons, List.sum_cons, Int.ofNat_eq_natCast] at ihr ⊢
      push_cast at ihr ⊢
      omega

/-- Claim C10: storing an entry whose data exceeds `maxTotalBytes` first
evicts every existing entry (the byte condition can never be satisfied, so
the loop drains the map) and then declines to store the new entry, leaving
the cache empty. -/
theorem memoryCache_oversize_clears (c : MemoryCache) (key : String) (entry : CacheEntry)
    (ttl now : Nat)
    (hkeys : (c.entries.map Prod.fst).Nodup)
    (hwf : c.currentBytes = Int.ofNat (sumBytesNat c.entries))
    (hbig : entry.data.length > c.maxTotalBytes) :
    (c.set key entry ttl now).entries = [] ∧ (c.set key entry ttl now).currentBytes = 0 := by
  unfold MemoryCache.set
  cases hlk : lookupEntry key c.entries with
  | none =>
    dsimp only
    rw [hwf]
    rw [evictLoop_clears c.maxEntries c.maxTotalBytes entry.data.length hbig c.entries]
    rw [if_pos hbig]
    exact ⟨rfl, rfl⟩
  | some existing =>
    dsimp only
    have hsum := sum_removeKey key existing c.entries hkeys hlk
    rw [hwf, show Int.ofNat (sumBytesNat c.entries) - (existing.entry.data.length : Int) =
      Int.ofNat (sumBytesNat (removeKey key c.entries)) from hsum.symm]
    rw [evictLoop_clears c.maxEntries c.maxTotalBytes entry.data.length hbig
      (removeKey key c.entries)]
    rw [if_pos hbig]
    exact ⟨rfl, rfl⟩

/-- Witness: a 6-byte entry against a 5-byte total budget empties a cache
holding one 3-byte entry. -/
theorem memoryCache_oversize_clears_witness :
    (MemoryCache.set ⟨[("k", ⟨⟨[1, 2, 3], "image/png", 0⟩, 99999⟩)], 1000, 5, 3⟩
      "k2" ⟨[9, 9, 9, 9, 9, 9], "image/png", 0⟩ 60 0).entries = []
    ∧ (MemoryCache.set ⟨[("k", ⟨⟨[1, 2, 3], "image/png", 0⟩, 99999⟩)], 1000, 5, 3⟩
      "k2" ⟨[9, 9, 9, 9, 9, 9], "image/png", 0⟩ 60 0).currentBytes = 0 :=
  memoryCache_oversize_clears ⟨[("k", ⟨⟨[1, 2, 3], "image/png", 0⟩, 99999⟩)], 1000, 5, 3⟩
    "k2" ⟨[9, 9, 9, 9, 9, 9], "image/png", 0⟩ 60 0 (by decide) (by decide) (by decide)

/-! ## Single-flight coordinator (lib/singleflight.ts `Singleflight.do`)
The event-loop interleaving is modelled as a sequence of atomic events over
the coordinator state. `arrive c k` is the synchronous prefix of
`do(k, fn)` — the map check plus, on a miss, registering the flight and
starting `fn` (one upstream execution); `commit k o` is the settling of the
flight's shared promise — every awaiter receives the same outcome (an error
is re-raised to each) and the entry is deleted. -/

inductive SFOutcome where
  | ok (v : Nat)
  | err (e : Nat)
deriving DecidableEq, Repr

/-- A caller awaiting a flight, with the `coalesced` flag it will report. -/
structure Waiter where
  caller : Nat
  flight : Nat
  coalesced : Bool
deriving DecidableEq, Repr

/-- The coordinator state: the `flights` map (key → flight id), a fresh-id
counter, the log of started executions, the awaiting callers, and the
outcomes delivered to callers. -/
structure SFState where
  flights : List (String × Nat)
  nextId : Nat
  started : List (String × Nat)
  waiters : List Waiter
  delivered : List (Nat × Bool × SFOutcome)
deriving DecidableEq, Repr

def findFlight (k : String) : List (String × Nat) → Option Nat
  | [] => none
  | (k', f) :: rest => if k' = k then some f else findFlight k rest

inductive SFEvent where
  | arrive (caller : Nat) (key : String)
  | commit (key : String) (o : SFOutcome)
deriving DecidableEq, Repr

def sfStep (s : SFState) : SFEvent → SFState
  | .arrive c k =>
    match findFlight k s.flights with
    | some f => { s with waiters := ⟨c, f, true⟩ :: s.waiters }
    | none =>
      { s with
        flights := (k, s.nextId) :: s.flights
        nextId := s.nextId + 1
        started := (k, s.nextId) :: s.started
        waiters := ⟨c, s.nextId, false⟩ :: s.waiters }
  | .commit k o =>
    match findFlight k s.flights with
    | none => s
    | some f =>
      { s with
        flights := s.flights.filter (fun p => p.1 ≠ k)
        waiters := s.waiters.filter (fun w => w.flight ≠ f)
        delivered := (s.waiters.filter (fun w => w.flight = f)).map
          (fun w => (w.caller, w.coalesced, o)) ++ s.delivered }

def sfRun (s : SFState) (evts : List SFEvent) : SFState := List.foldl sfStep s evts

/-- Number of executions started for key `k` (upstream GETs for `k`). -/
def startedFor (k : String) (s : SFState) : Nat :=
  (s.started.filter (fun p => p.1 = k)).length

/-- The callers that arrive on key `k` in an event sequence. -/
def arrivalsOn (k : String) (evts : List SFEvent) : List Nat :=
  evts.filterMap (fun e => match e with
    | .arrive c k' => if k' = k then some c else none
    | .commit _ _ => none)

lemma findFlight_mem (k : String) (f : Nat) :
    ∀ l : List (String × Nat), findFlight k l = some f → (k, f) ∈ l := by
  intro l
  induction l with
  | nil => intro hc; simp [findFlight] at hc
  | cons p rest ih =>
    intro hf
    rcases p with ⟨k', f'⟩
    by_cases hk : k' = k
    · subst hk
      simp only [findFlight, if_true, eq_self_iff_true, Option.some.injEq] at hf
      subst hf
      exact List.mem_cons_self _ _
    · simp only [findFlight, if_neg hk] at hf
      exact List.mem_cons_of_mem _ (ih hf)

lemma findFlight_filter_ne (k k' : String) (hkk : k ≠ k') :
    ∀ l : List (String × Nat),
      findFlight k (l.filter (fun p => p.1 ≠ k')) = findFlight k l := by
  intro l
  induction l with
  | nil => rfl
  | cons p rest ih =>
    rcases p with ⟨k0, f0⟩
    by_cases h0 : k0 = k'
    · subst h0
      rw [List.filter_cons_of_neg (by simp)]
      rw [ih]
      simp only [findFlight]
      rw [if_neg (fun hc => hkk hc.symm)]
    · rw [List.filter_cons_of_pos (by simp [h0])]
      simp only [findFlight]
      by_cases h1 : k0 = k
      · simp [h1]
      · simp only [if_neg h1]
        exact ih

lemma findFlight_filter_self (k : String) :
    ∀ l : List (String × Nat), findFlight k (l.filter (fun p => p.1 ≠ k)) = none := by
  intro l
  induction l with
  | nil => rfl
  | cons p rest ih =>
    rcases p with ⟨k0, f0⟩
    by_cases h0 : k0 = k
    · subst h0
      rw [List.filter_cons_of_neg (by simp)]
      exact ih
    · rw [List.filter_cons_of_pos (by simp [h0])]
      simp only [findFlight, if_neg h0]
      exact ih

lemma sfRun_mids (K : String) (f : Nat) :
    ∀ (mids : List SFEvent) (s : SFState),
      (∀ o, SFEvent.commit K o ∉ mids) →
      findFlight K s.flights = some f →
      (∀ p ∈ s.flights, p.2 < s.nextId) →
      (∀ p ∈ s.flights, p.1 ≠ K → p.2 ≠ f) →
      findFlight K (sfRun s mids).flights = some f
      ∧ (∀ p ∈ (sfRun s mids).flights, p.2 < (sfRun s mids).nextId)
      ∧ (∀ p ∈ (sfRun s mids).flights, p.1 ≠ K → p.2 ≠ f)
      ∧ (sfRun s mids).waiters.filter (fun w => w.flight = f) =
          ((arrivalsOn K mids).reverse.map (fun c => Waiter.mk c f true))
            ++ s.waiters.filter (fun w => w.flight = f)
      ∧ startedFor K (sfRun s mids) = startedFor K s := by
  intro mids
  induction mids with
  | nil =>
    intro s _ h1 h2 h3
    exact ⟨h1, h2, h3, by simp [sfRun, arrivalsOn], rfl⟩
  | cons e rest ih =>
    intro s hnc h1 h2 h3
    have hncr : ∀ o, SFEvent.commit K o ∉ rest :=
      fun o ho => hnc o (List.mem_cons_of_mem _ ho)
    rw [show sfRun s (e :: rest) = sfRun (sfStep s e) rest from rfl]
    have hf_lt : f < s.nextId := h2 (K, f) (findFlight_mem K f s.flights h1)
    cases e with
    | arrive c k' =>
      by_cases hk : k' = K
      · subst hk
        have hstep : sfStep s (.arrive c k') =
            { s with waiters := ⟨c, f, true⟩ :: s.waiters } := by
          simp [sfStep, h1]
        rw [hstep]
        have hrec := ih { s with waiters := ⟨c, f, true⟩ :: s.waiters } hncr
          (by simpa using h1) (by simpa using h2) (by simpa using h3)
        refine ⟨hrec.1, hrec.2.1, hrec.2.2.1, ?_, by rw [hrec.2.2.2.2]; rfl⟩
        rw [hrec.2.2.2.1]
        have harr : arrivalsOn k' (.arrive c k' :: rest) = c :: arrivalsOn k' rest := by
          simp [arrivalsOn]
        rw [harr]
        simp only [List.reverse_cons, List.map_append, List.map_cons, List.map_nil,
          List.append_assoc, List.singleton_append]
        congr 1
        rw [List.filter_cons_of_pos (by simp)]
      · cases hg : findFlight k' s.flights with
        | some g =>
          have hgne : g ≠ f :=
            h3 (k', g) (findFlight_mem k' g s.flights hg) hk
          have hstep : sfStep s (.arrive c k') =
              { s with waiters := ⟨c, g, true⟩ :: s.waiters } := by
            simp [sfStep, hg]
          rw [hstep]
          have hrec := ih { s with waiters := ⟨c, g, true⟩ :: s.waiters } hncr
            (by simpa using h1) (by simpa using h2) (by simpa using h3)
          refine ⟨hrec.1, hrec.2.1, hrec.2.2.1, ?_, by rw [hrec.2.2.2.2]; rfl⟩
          rw [hrec.2.2.2.1]
          have harr : arrivalsOn K (.arrive c k' :: rest) = arrivalsOn K rest := by
            simp [arrivalsOn, hk]
          rw [harr]
          congr 1
          rw [List.filter_cons_of_neg (by simp [hgne])]
        | none =>
          have hstep : sfStep s (.arrive c k') =
              { s with
                flights := (k', s.nextId) :: s.flights
                nextId := s.nextId + 1
                started := (k', s.nextId) :: s.started
                waiters := ⟨c, s.nextId, false⟩ :: s.waiters } := by
            simp [sfStep, hg]
          rw [hstep]
          have h1' : findFlight K ((k', s.nextId) :: s.flights) = some f := by
            simp only [findFlight, if_neg hk]
            exact h1
          have h2' : ∀ p ∈ (k', s.nextId) :: s.flights, p.2 < s.nextId + 1 := by
            intro p hp
            rcases List.mem_cons.mp hp with hp | hp
            · subst hp; simp
            · exact Nat.lt_succ_of_lt (h2 p hp)
          have h3' : ∀ p ∈ (k', s.nextId) :: s.flights, p.1 ≠ K → p.2 ≠ f := by
            intro p hp hpk
            rcases List.mem_cons.mp hp with hp | hp
            · subst hp
              exact fun hc => absurd hc.symm (Nat.ne_of_lt hf_lt)
            · exact h3 p hp hpk
          have hrec := ih
            { s with
              flights := (k', s.nextId) :: s.flights
              nextId := s.nextId + 1
              started := (k', s.nextId) :: s.started
              waiters := ⟨c, s.nextId, false⟩ :: s.waiters } hncr h1' h2' h3'
          refine ⟨hrec.1, hrec.2.1, hrec.2.2.1, ?_, ?_⟩
          · rw [hrec.2.2.2.1]
            have harr : arrivalsOn K (.arrive c k' :: rest) = arrivalsOn K rest := by
              simp [arrivalsOn, hk]
            rw [harr]
            congr 1
            rw [List.filter_cons_of_neg
              (by simp; exact fun hc => absurd hc.symm (Nat.ne_of_lt hf_lt))]
          · rw [hrec.2.2.2.2]
            simp only [startedFor]
            rw [List.filter_cons_of_neg (by simp [hk])]
    | commit k' o =>
      have hk : k' ≠ K := by
        intro hc
        subst hc
        exact hnc o (List.mem_cons_self _ _)
      cases hg : findFlight k' s.flights with
      | none =>
        have hstep : sfStep s (.commit k' o) = s := by
          simp [sfStep, hg]
        rw [hstep]
        exact ih s hncr h1 h2 h3
      | some g =>
        have hgne : g ≠ f := h3 (k', g) (findFlight_mem k' g s.flights hg) hk
        have hstep : sfStep s (.commit k' o) =
            { s with
              flights := s.flights.filter (fun p => p.1 ≠ k')
              waiters := s.waiters.filter (fun w => w.flight ≠ g)
              delivered := (s.waiters.filter (fun w => w.flight = g)).map
                (fun w => (w.caller, w.coalesced, o)) ++ s.delivered } := by
          simp [sfStep, hg]
        rw [hstep]
        have h1' : findFlight K (s.flights.filter (fun p => p.1 ≠ k')) = some f := by
          rw [findFlight_filter_ne K k' (fun hc => hk hc.symm)]
          exact h1
        have h2' : ∀ p ∈ s.flights.filter (fun p => p.1 ≠ k'), p.2 < s.nextId :=
          fun p hp => h2 p (List.mem_of_mem_filter hp)
        have h3' : ∀ p ∈ s.flights.filter (fun p => p.1 ≠ k'), p.1 ≠ K → p.2 ≠ f :=
          fun p hp => h3 p (List.mem_of_mem_filter hp)
        have hrec := ih
          { s with
            flights := s.flights.filter (fun p => p.1 ≠ k')
            waiters := s.waiters.filter (fun w => w.flight ≠ g)
            delivered := (s.waiters.filter (fun w => w.flight = g)).map
              (fun w => (w.caller, w.coalesced, o)) ++ s.delivered } hncr h1' h2' h3'
        refine ⟨hrec.1, hrec.2.1, hrec.2.2.1, ?_, by rw [hrec.2.2.2.2]; rfl⟩
        rw [hrec.2.2.2.1]
        have harr : arrivalsOn K (.commit k' o :: rest) = arrivalsOn K rest := by
          simp [arrivalsOn]
        rw [harr]
        congr 1
        rw [List.filter_filter]
        apply List.filter_congr
        intro w _
        by_cases hw : w.flight = f
        · have hfg : w.flight ≠ g := by
            rw [hw]
            exact fun hc => hgne hc.symm
          simp [hw, hfg]
          exact fun hc => hgne hc.symm
        · simp [hw]

/-- Claim C6: when a caller `c0` arrives on key `K` with no flight in
progress, it becomes the leader and starts exactly one execution; every
caller arriving on `K` before the commit coalesces onto that flight (no new
execution) and receives the leader's outcome — including an error outcome,
which is delivered to each follower rather than starting a new flight; the
coordinator entry for `K` is removed at commit; and a caller arriving after
the commit starts a fresh flight. -/
theorem singleflight_single_execution (s0 : SFState) (c0 cNew : Nat) (K : String)
    (mids : List SFEvent) (o : SFOutcome)
    (hK : findFlight K s0.flights = none)
    (hfb : ∀ p ∈ s0.flights, p.2 < s0.nextId)
    (hwb : ∀ w ∈ s0.waiters, w.flight < s0.nextId)
    (hmids : ∀ o', SFEvent.commit K o' ∉ mids) :
    startedFor K (sfStep (sfRun (sfStep s0 (.arrive c0 K)) mids) (.commit K o)) =
      startedFor K s0 + 1
    ∧ (c0, false, o) ∈
        (sfStep (sfRun (sfStep s0 (.arrive c0 K)) mids) (.commit K o)).delivered
    ∧ (∀ c ∈ arrivalsOn K mids, (c, true, o) ∈
        (sfStep (sfRun (sfStep s0 (.arrive c0 K)) mids) (.commit K o)).delivered)
    ∧ findFlight K
        (sfStep (sfRun (sfStep s0 (.arrive c0 K)) mids) (.commit K o)).flights = none
    ∧ startedFor K (sfStep (sfStep (sfRun (sfStep s0 (.arrive c0 K)) mids) (.commit K o))
        (.arrive cNew K)) = startedFor K s0 + 2 := by
  have hstep1 : sfStep s0 (.arrive c0 K) =
      { s0 with
        flights := (K, s0.nextId) :: s0.flights
        nextId := s0.nextId + 1
        started := (K, s0.nextId) :: s0.started
        waiters := ⟨c0, s0.nextId, false⟩ :: s0.waiters } := by
    simp [sfStep, hK]
  rw [hstep1]
  have h1 : findFlight K ((K, s0.nextId) :: s0.flights) = some s0.nextId := by
    simp [findFlight]
  have h2 : ∀ p ∈ (K, s0.nextId) :: s0.flights, p.2 < s0.nextId + 1 := by
    intro p hp
    rcases List.mem_cons.mp hp with hp | hp
    · subst hp; simp
    · exact Nat.lt_succ_of_lt (hfb p hp)
  have h3 : ∀ p ∈ (K, s0.nextId) :: s0.flights, p.1 ≠ K → p.2 ≠ s0.nextId := by
    intro p hp hpk
    rcases List.mem_cons.mp hp with hp | hp
    · subst hp
      exact absurd rfl hpk
    · exact Nat.ne_of_lt (hfb p hp)
  obtain ⟨r1, r2, r3, r4, r5⟩ := sfRun_mids K s0.nextId mids
    { s0 with
      flights := (K, s0.nextId) :: s0.flights
      nextId := s0.nextId + 1
      started := (K, s0.nextId) :: s0.started
      waiters := ⟨c0, s0.nextId, false⟩ :: s0.waiters } hmids h1 h2 h3
  have hw0 : (Waiter.mk c0 s0.nextId false :: s0.waiters).filter
      (fun w => w.flight = s0.nextId) = [⟨c0, s0.nextId, false⟩] := by
    rw [List.filter_cons_of_pos (by simp)]
    have : s0.waiters.filter (fun w => w.flight = s0.nextId) = [] := by
      rw [List.filter_eq_nil_iff]
      intro w hw
      simpa using Nat.ne_of_lt (hwb w hw)
    rw [this]
  rw [show ({ s0 with
      flights := (K, s0.nextId) :: s0.flights
      nextId := s0.nextId + 1
      started := (K, s0.nextId) :: s0.started
      waiters := ⟨c0, s0.nextId, false⟩ :: s0.waiters } : SFState).waiters =
    Waiter.mk c0 s0.nextId false :: s0.waiters from rfl, hw0] at r4
  have hstep3 : sfStep (sfRun { s0 with
      flights := (K, s0.nextId) :: s0.flights
      nextId := s0.nextId + 1
      started := (K, s0.nextId) :: s0.started
      waiters := ⟨c0, s0.nextId, false⟩ :: s0.waiters } mids) (.commit K o) =
      { sfRun { s0 with
          flights := (K, s0.nextId) :: s0.flights
          nextId := s0.nextId + 1
          started := (K, s0.nextId) :: s0.started
          waiters := ⟨c0, s0.nextId, false⟩ :: s0.waiters } mids with
        flights := (sfRun { s0 with
          flights := (K, s0.nextId) :: s0.flights
          nextId := s0.nextId + 1
          started := (K, s0.nextId) :: s0.started
          waiters := ⟨c0, s0.nextId, false⟩ :: s0.waiters } mids).flights.filter
            (fun p => p.1 ≠ K)
        waiters := (sfRun { s0 with
          flights := (K, s0.nextId) :: s0.flights
          nextId := s0.nextId + 1
          started := (K, s0.nextId) :: s0.started
          waiters := ⟨c0, s0.nextId, false⟩ :: s0.waiters } mids).waiters.filter
            (fun w => w.flight ≠ s0.nextId)
        delivered := ((sfRun { s0 with
          flights := (K, s0.nextId) :: s0.flights
          nextId := s0.nextId + 1
          started := (K, s0.nextId) :: s0.started
          waiters := ⟨c0, s0.nextId, false⟩ :: s0.waiters } mids).waiters.filter
            (fun w => w.flight = s0.nextId)).map
              (fun w => (w.caller, w.coalesced, o)) ++ (sfRun { s0 with
          flights := (K, s0.nextId) :: s0.flights
          nextId := s0.nextId + 1
          started := (K, s0.nextId) :: s0.started
          waiters := ⟨c0, s0.nextId, false⟩ :: s0.waiters } mids).delivered } := by
    simp [sfStep, r1]
  rw [hstep3]
  have hstarted1 : startedFor K { s0 with
      flights := (K, s0.nextId) :: s0.flights
      nextId := s0.nextId + 1
      started := (K, s0.nextId) :: s0.started
      waiters := ⟨c0, s0.nextId, false⟩ :: s0.waiters } = startedFor K s0 + 1 := by
    simp only [startedFor]
    rw [List.filter_cons_of_pos (by simp)]
    simp
  have hfindNone : findFlight K ((sfRun { s0 with
      flights := (K, s0.nextId) :: s0.flights
      nextId := s0.nextId + 1
      started := (K, s0.nextId) :: s0.started
      waiters := ⟨c0, s0.nextId, false⟩ :: s0.waiters } mids).flights.filter
        (fun p => p.1 ≠ K)) = none := findFlight_filter_self K _
  refine ⟨?_, ?_, ?_, hfindNone, ?_⟩
  · show startedFor K (sfRun _ mids) = startedFor K s0 + 1
    rw [r5, hstarted1]
  · show (c0, false, o) ∈ _ ++ _
    rw [r4]
    simp
  · intro c hc
    show (c, true, o) ∈ _ ++ _
    rw [r4]
    simp only [List.map_append, List.map_map, List.mem_append]
    left
    left
    simp only [List.mem_map, Function.comp]
    exact ⟨c, by simpa using hc, rfl⟩
  · simp only [sfStep, hfindNone]
    simp only [startedFor]
    rw [List.filter_cons_of_pos (by simp)]
    simp only [List.length_cons]
    have := r5
    simp only [startedFor] at this hstarted1
    omega

/-- Witness: a leader plus two concurrent followers on key `k` with an error
outcome — one execution, the error delivered to leader and both followers,
the entry removed, and a later arrival starting a second execution. -/
theorem singleflight_single_execution_witness :
    startedFor "k" (sfStep (sfRun (sfStep ⟨[], 0, [], [], []⟩ (.arrive 1 "k"))
        [.arrive 2 "k", .arrive 3 "k"]) (.commit "k" (.err 42))) = 0 + 1
    ∧ (1, false, SFOutcome.err 42) ∈
        (sfStep (sfRun (sfStep ⟨[], 0, [], [], []⟩ (.arrive 1 "k"))
          [.arrive 2 "k", .arrive 3 "k"]) (.commit "k" (.err 42))).delivered
    ∧ (3, true, SFOutcome.err 42) ∈
        (sfStep (sfRun (sfStep ⟨[], 0, [], [], []⟩ (.arrive 1 "k"))
          [.arrive 2 "k", .arrive 3 "k"]) (.commit "k" (.err 42))).delivered
    ∧ findFlight "k" (sfStep (sfRun (sfStep ⟨[], 0, [], [], []⟩ (.arrive 1 "k"))
          [.arrive 2 "k", .arrive 3 "k"]) (.commit "k" (.err 42))).flights = none
    ∧ startedFor "k" (sfStep (sfStep (sfRun (sfStep ⟨[], 0, [], [], []⟩ (.arrive 1 "k"))
          [.arrive 2 "k", .arrive 3 "k"]) (.commit "k" (.err 42)))
        (.arrive 9 "k")) = 0 + 2 := by
  have hmain := singleflight_single_execution ⟨[], 0, [], [], []⟩ 1 9 "k"
    [.arrive 2 "k", .arrive 3 "k"] (.err 42) rfl (by simp) (by simp)
    (by intro o' hmem; simp at hmem)
  exact ⟨hmain.1, hmain.2.1, hmain.2.2.1 3 (by decide), hmain.2.2.2.1, hmain.2.2.2.2⟩

end CDN
